import Mathlib

/-
Shallow embedding of the order-book engine in src/src/ob.rs
(repository isvforall/orderbook-rs) and verification of the frozen
claims about it.

Modelling conventions, fixed once for the whole file:

* Rust `f64` prices and sizes are modelled as exact rationals (ℚ).
  All prices exercised by the claims are exact multiples of 0.01, for
  which the Rust double arithmetic used by the code (multiply by 100,
  truncate; subtract sizes; compare with a tolerance) coincides with
  the rational arithmetic used here.
* Rust `usize` is modelled as Nat together with explicit wrap-around
  arithmetic modulo 2^64 (`wadd`, `wsub`) at the places where the
  source can overflow (the release-profile semantics of the deployed
  binary).  Where an overflowed value is subsequently used to index
  the grid, the resulting index is out of bounds and the process
  aborts; such aborts are modelled as `none` / `MRes.panic`.
* A Rust panic (a failed `assert!`, an out-of-bounds index, or an
  arithmetic overflow abort) is the `MRes.panic` outcome: the process
  dies and no state survives.  A returned `Err` is `MRes.err e ob`
  carrying the error and the (possibly partially mutated) book state
  the mutable reference holds after the call.
* `Uuid` is an opaque equality-comparable token, modelled as Nat
  (`Uuid::nil()` would be 0; it is not needed by the claims).
* `VecDeque` front is the head of a Lean list; `push_back` appends at
  the tail, `pop_front` drops the head, `[0]` is the head.
-/

namespace OB

/-- Rust std::usize::MAX, the sentinel stored in `ask` while the sell
side is empty (std::usize::MIN = 0 is the sentinel for `bid`). -/
def USIZE_MAX : Nat := 2 ^ 64 - 1

/-- Modulus of usize arithmetic. -/
def USIZE_MOD : Nat := 2 ^ 64

/-- Wrapping usize addition, release-profile Rust semantics. -/
def wadd (a b : Nat) : Nat := (a + b) % USIZE_MOD

/-- Wrapping usize subtraction, release-profile Rust semantics. -/
def wsub (a b : Nat) : Nat := (a + (USIZE_MOD - b % USIZE_MOD)) % USIZE_MOD

/-- Opaque order identifier (Uuid in the source). -/
abbrev Uuid := Nat

/-- One price level: the VecDeque<(f64, Uuid)> of resting entries,
head of the list = front of the queue. -/
abbrev Level := List (ℚ × Uuid)

/-- The error type returned by the engine (super::Error in the source):
Error::Range from get_idx, Error::MatchUuid from _match. -/
inductive Error where
  | Range : Error
  | MatchUuid : Error
deriving DecidableEq, Repr

/-- Side of an open order (super::Side). -/
inductive Side where
  | Buy : Side
  | Sell : Side
deriving DecidableEq, Repr

/-- super::BookRecord. -/
structure BookRecord where
  price : ℚ
  size : ℚ
  id : Uuid
deriving DecidableEq, Repr

/-- The OrderBook struct: grid of levels plus the two touch cursors
and the `_match` scratch field. -/
structure OrderBook where
  book : List Level
  bid : Nat
  ask : Nat
  matchIdx : Nat
deriving DecidableEq, Repr

/-- Outcome of a mutation (Rust Result<()> on &mut self, plus the
abort outcome).  `ok` and `err` carry the state held by the mutable
reference after the call; `panic` is a process abort. -/
inductive MRes where
  | ok : OrderBook → MRes
  | err : Error → OrderBook → MRes
  | panic : MRes
deriving DecidableEq, Repr

/-- Level read `self.book[p]` for an index already checked to be in
range (getD with a junk default keeps the function total). -/
def lvl (book : List Level) (p : Nat) : Level := book.getD p []

/-- Sum of the sizes of the entries resting at one level — the body of
the closure in OrderBook::side. -/
def levelSize (l : Level) : ℚ := (l.map Prod.fst).sum

/-- OrderBook::new(): empty levels, bid = usize::MIN, ask = usize::MAX.
MAX_SIZE is the construction-time capacity. -/
def OrderBook.new (maxSize : Nat) : OrderBook :=
  { book := List.replicate maxSize []
    bid := 0
    ask := USIZE_MAX
    matchIdx := 0 }

/-- OrderBook::bid(): self.bid as f64 / 100.0. -/
def OrderBook.bidPrice (ob : OrderBook) : ℚ := (ob.bid : ℚ) / 100

/-- OrderBook::ask(): self.ask as f64 / 100.0. -/
def OrderBook.askPrice (ob : OrderBook) : ℚ := (ob.ask : ℚ) / 100

/-- Price quantization inside get_idx: (price * 100.0) as usize.
Int.toNat mirrors the saturating f64→usize cast for negative input. -/
def quantize (price : ℚ) : Nat := (⌊price * 100⌋).toNat

/-- OrderBook::get_idx: quantize and range-check against the grid
capacity; none stands for Err(Error::Range). -/
def OrderBook.get_idx (ob : OrderBook) (price : ℚ) : Option Nat :=
  if quantize price < ob.book.length then some (quantize price) else none

/-- A price of n cents, the exact grid prices used in concrete
instances below. -/
def cents (n : Nat) : ℚ := (n : ℚ) / 100

/-- OrderBook::side: the slice self.book[a..=b] mapped through the
per-level size sum.  none models the slice-bound panic (a > b+1 or
b+1 > len). -/
def OrderBook.side (ob : OrderBook) (a b : Nat) : Option (List ℚ) :=
  if a ≤ b + 1 ∧ b < ob.book.length then
    some (((ob.book.drop a).take (b + 1 - a)).map levelSize)
  else none

/-- OrderBook::bids: self.side((self.bid-sz+1)..=self.bid), with the
usize arithmetic wrapping. -/
def OrderBook.bids (ob : OrderBook) (sz : Nat) : Option (List ℚ) :=
  ob.side (wadd (wsub ob.bid sz) 1) ob.bid

/-- OrderBook::asks: self.side(self.ask..=(self.ask+sz-1)), with the
usize arithmetic wrapping. -/
def OrderBook.asks (ob : OrderBook) (sz : Nat) : Option (List ℚ) :=
  ob.side ob.ask (wsub (wadd ob.ask sz) 1)

/-- The bid half of check_ask_bid: while self.book[self.bid].len() == 0
{ self.bid -= 1 }.  Stepping below 0 wraps to usize::MAX and the next
grid access aborts; an access at an index ≥ len aborts directly.  Both
aborts are none. -/
def scanDown (book : List Level) : Nat → Option Nat
  | 0 =>
    if book.length ≤ 0 then none
    else if lvl book 0 ≠ [] then some 0
    else none
  | b + 1 =>
    if book.length ≤ b + 1 then none
    else if lvl book (b + 1) ≠ [] then some (b + 1)
    else scanDown book b

/-- The ask half of check_ask_bid: while self.book[self.ask].len() == 0
{ self.ask += 1 }.  An access at an index ≥ len aborts (none); this is
also the path taken when ask still holds the usize::MAX sentinel. -/
def scanUp (book : List Level) (a : Nat) : Option Nat :=
  if h : book.length ≤ a then none
  else if lvl book a ≠ [] then some a
  else scanUp book (a + 1)
termination_by book.length - a
decreasing_by
  simp only [not_le] at h
  omega

/-- OrderBook::check_ask_bid: repair the bid cursor, then the ask
cursor, after a mutation at index p.  none = abort inside a scan. -/
def OrderBook.check_ask_bid (ob : OrderBook) (p : Nat) : Option OrderBook :=
  match (if p = ob.bid then scanDown ob.book ob.bid else some ob.bid) with
  | none => none
  | some b =>
    match (if p = ob.ask then scanUp ob.book ob.ask else some ob.ask) with
    | none => none
    | some a => some { ob with bid := b, ask := a }

/-- OrderBook::open: resolve the index, advance the touch cursor if
the new order improves it, assert the no-cross invariant (a failed
assert aborts the process), then push the entry at the tail of the
level queue. -/
def OrderBook.openOrder (ob : OrderBook) (side : Side) (rec : BookRecord) : MRes :=
  match ob.get_idx rec.price with
  | none => .err .Range ob
  | some p =>
    let ob₁ :=
      match side with
      | .Buy => if p > ob.bid then { ob with bid := p } else ob
      | .Sell => if p < ob.ask then { ob with ask := p } else ob
    if ob₁.bid < ob₁.ask then
      .ok { ob₁ with book := ob₁.book.set p (lvl ob₁.book p ++ [(rec.size, rec.id)]) }
    else .panic

/-- Tolerance of the relative_eq!(sz, 0.0) macro with its defaults:
against zero the relative branch is vacuous, so the test reduces to
|sz| ≤ f64::EPSILON = 2^-52. -/
def EPSILON : ℚ := 1 / 2 ^ 52

/-- f64::abs as used inside relative_eq!: flip the sign when negative. -/
def fabs (z : ℚ) : ℚ := if z < 0 then -z else z

/-- OrderBook::_match: resolve the index; mismatch against the queue
head returns Err(MatchUuid) with the book untouched; a head size
within tolerance of the traded size pops the head, repairs the
cursors and records the index in the `_match` field.  Faithful to the
source, the partial-fill branch leaves the head entry untouched: the
decremented size lives only in the local `sz`. -/
def OrderBook.matchOrder (ob : OrderBook) (price size : ℚ) (id : Uuid) : MRes :=
  match ob.get_idx price with
  | none => .err .Range ob
  | some p =>
    match lvl ob.book p with
    | [] => .err .MatchUuid ob
    | (hsz, hid) :: rest =>
      if id ≠ hid then .err .MatchUuid ob
      else
        let sz := hsz - size
        if fabs sz ≤ EPSILON then
          match ({ ob with book := ob.book.set p rest }).check_ask_bid p with
          | some ob' => .ok { ob' with matchIdx := p }
          | none => .panic
        else .ok ob

/-- OrderBook::done: resolve the index, retain the entries whose id
differs, then repair the cursors. -/
def OrderBook.done (ob : OrderBook) (price : ℚ) (id : Uuid) : MRes :=
  match ob.get_idx price with
  | none => .err .Range ob
  | some p =>
    let ob₁ := { ob with
      book := ob.book.set p ((lvl ob.book p).filter (fun e => decide (e.2 ≠ id))) }
    match ob₁.check_ask_bid p with
    | some ob₂ => .ok ob₂
    | none => .panic

/-- OrderBook::change: resolve the index; a zero new size delegates to
done (its Err is swallowed by unwrap_or_default, its abort is not);
otherwise overwrite in place the size of every entry whose id matches. -/
def OrderBook.change (ob : OrderBook) (price new_size : ℚ) (id : Uuid) : MRes :=
  match ob.get_idx price with
  | none => .err .Range ob
  | some p =>
    if new_size = 0 then
      match ob.done price id with
      | .ok ob' => .ok ob'
      | .err _ ob' => .ok ob'
      | .panic => .panic
    else
      .ok { ob with
        book := ob.book.set p
          ((lvl ob.book p).map (fun e => if e.2 = id then (new_size, e.2) else e)) }

/-- try_for_each over a record list: open each record on the given
side, stopping at the first Err (state so far is kept) or abort. -/
def OrderBook.openAll (ob : OrderBook) (side : Side) : List BookRecord → MRes
  | [] => .ok ob
  | r :: rs =>
    match ob.openOrder side r with
    | .ok ob' => ob'.openAll side rs
    | .err e ob' => .err e ob'
    | .panic => .panic

/-- OrderBook::reload: reset both cursors to their sentinels, clear
every level, then replay the bid records and the ask records in input
order. -/
def OrderBook.reload (ob : OrderBook) (bids asks : List BookRecord) : MRes :=
  let ob₀ : OrderBook :=
    { book := ob.book.map (fun _ => ([] : Level))
      bid := 0
      ask := USIZE_MAX
      matchIdx := ob.matchIdx }
  match ob₀.openAll .Buy bids with
  | .ok ob₁ => ob₁.openAll .Sell asks
  | .err e ob₁ => .err e ob₁
  | .panic => .panic

/-! Small evaluation helpers used by the concrete instances. -/

lemma quantize_cents (n : Nat) : quantize (cents n) = n := by
  unfold quantize cents
  rw [div_mul_cancel₀ _ (by norm_num : (100 : ℚ) ≠ 0)]
  rw [Int.floor_natCast]
  exact Int.toNat_natCast n

lemma lt_USIZE_MAX {n : Nat} (h : n < 2 ^ 64 - 1) : n < USIZE_MAX := h

lemma ne_USIZE_MAX {n : Nat} (h : n < 2 ^ 64 - 1) : n ≠ USIZE_MAX :=
  Nat.ne_of_lt h

lemma get_idx_some {ob : OrderBook} {price : ℚ} (h : quantize price < ob.book.length) :
    ob.get_idx price = some (quantize price) := by
  simp [OrderBook.get_idx, h]

lemma lvl_set (l : List Level) (p : Nat) (x : Level) (h : p < l.length) :
    lvl (l.set p x) p = x := by
  rw [lvl, List.getD_eq_getElem _ _ (by simpa using h), List.getElem_set_self]

lemma set_lvl_self (l : List Level) (p : Nat) (h : p < l.length) :
    l.set p (lvl l p) = l := by
  apply List.ext_getElem (by simp)
  intro n h₁ h₂
  rcases eq_or_ne p n with rfl | hne
  · rw [List.getElem_set_self, lvl, List.getD_eq_getElem _ _ h]
  · rw [List.getElem_set_ne hne]

lemma map_eq_self_of {α : Type} (l : List α) (f : α → α) (h : ∀ e ∈ l, f e = e) :
    l.map f = l := by
  induction l with
  | nil => rfl
  | cons a l ih =>
    rw [List.map_cons, h a (by simp), ih fun e he => h e (by simp [he])]

lemma filter_idem {α : Type} (f : α → Bool) (l : List α) :
    (l.filter f).filter f = l.filter f := by
  rw [List.filter_filter]
  exact List.filter_congr (fun a _ => Bool.and_self _)

/-! Claim C1. -/

/-- Book holding one resting order of size 1/2 at price 0.00 cents,
reached from a fresh book of capacity 1 by one open. -/
def obC1 : OrderBook :=
  { book := [[((1 : ℚ) / 2, 7)]], bid := 0, ask := USIZE_MAX, matchIdx := 0 }

/-- Claim C1 evaluated at its failing input.  The claim (and the spec)
says a partial fill — head size 1/2, traded size 1/4, remaining 1/4 >
tolerance — returns success with the head entry's resting size reduced
in place to 1/4.  The source computes the decremented size only into
the local variable `sz` of `_match` and never stores it: the call does
return Ok, but the head entry still carries size 1/2, as the final
conjunct shows. -/
theorem matchOrder_partial_fill_leaves_head_size :
    (OrderBook.new 1).openOrder .Buy ⟨cents 0, 1/2, 7⟩ = MRes.ok obC1 ∧
    obC1.matchOrder (cents 0) (1/4) 7 = MRes.ok obC1 ∧
    lvl obC1.book 0 = [(1/2, 7)] := by
  refine ⟨?_, ?_, rfl⟩
  · simp only [OrderBook.new, OrderBook.openOrder, OrderBook.get_idx, quantize_cents,
      obC1, List.replicate, lvl]
    norm_num [show (0 : Nat) < USIZE_MAX from lt_USIZE_MAX (by norm_num)]
  · simp only [obC1, OrderBook.matchOrder, OrderBook.get_idx, quantize_cents, lvl]
    norm_num [show ¬(fabs ((1 : ℚ) / 4) ≤ EPSILON) from by norm_num [fabs, EPSILON]]

/-! Claim C2. -/

/-- Book of capacity 6 with one resting buy of size 1 at index 5,
reached from a fresh book by one open. -/
def obC2 : OrderBook :=
  { book := [[], [], [], [], [], [((1 : ℚ), 1)]], bid := 5, ask := USIZE_MAX, matchIdx := 0 }

/-- Claim C2 evaluated at its failing input.  The claim says an
insertion that would violate bid_index < ask_index makes open return a
CrossedBookError and that open never aborts on in-range input.  The
source has no crossed-book error variant at all: open runs
assert!(self.bid < self.ask), so opening a sell at index 3 below the
resting bid at index 5 aborts the process (MRes.panic) instead of
returning an error. -/
theorem openOrder_crossed_aborts :
    (OrderBook.new 6).openOrder .Buy ⟨cents 5, 1, 1⟩ = MRes.ok obC2 ∧
    obC2.openOrder .Sell ⟨cents 3, 1, 2⟩ = MRes.panic := by
  constructor
  · simp only [OrderBook.new, OrderBook.openOrder, OrderBook.get_idx, quantize_cents,
      obC2, List.replicate, lvl]
    norm_num [show (5 : Nat) < USIZE_MAX from lt_USIZE_MAX (by norm_num)]
  · simp only [obC2, OrderBook.openOrder, OrderBook.get_idx, quantize_cents, lvl]
    norm_num [show (3 : Nat) < USIZE_MAX from lt_USIZE_MAX (by norm_num)]

/-! Claim C3. -/

/-- Book of capacity 6 whose only occupied level is the bid touch at
index 5 (same state as obC2, owned by claim C3). -/
def obC3 : OrderBook :=
  { book := [[], [], [], [], [], [((1 : ℚ), 1)]], bid := 5, ask := USIZE_MAX, matchIdx := 0 }

/-- Claim C3 evaluated at its failing input.  The claim says a
mutation that empties the last occupied level on a side makes the
repair scan stop at the grid boundary and park the cursor at the
empty-side sentinel.  In the source, check_ask_bid's loop
`while book[bid].len() == 0 { bid -= 1 }` has no boundary check:
cancelling the only bid walks indices 5,4,3,2,1,0, then decrements 0
(usize underflow, wrapping to an out-of-range index) and the process
aborts instead of parking the cursor at the sentinel. -/
theorem done_last_level_scan_overruns :
    obC3.done (cents 5) 1 = MRes.panic := by
  simp only [obC3, OrderBook.done, OrderBook.get_idx, quantize_cents, lvl,
    OrderBook.check_ask_bid, scanDown]
  norm_num [show (5 : Nat) ≠ USIZE_MAX from ne_USIZE_MAX (by norm_num)]

/-! Claim C5. -/

/-- Book of capacity 5 with one real resting buy at index 0 (price
0.00), reached from a fresh book by one open. -/
def obC5 : OrderBook :=
  { book := [[((1 : ℚ), 3)], [], [], [], []], bid := 0, ask := USIZE_MAX, matchIdx := 0 }

/-- Counterexample to claim C5.  bid() on a book whose buy side has no
liquidity returns the price computed from the bid sentinel index
(0/100 = 0.0), which is exactly the value bid() returns for a book
that really has a resting buy at index 0 — there is no defined
"no liquidity" signal distinguishable from a price.  Likewise ask() on
an empty sell side returns usize::MAX/100, a price computed from the
sentinel index value. -/
theorem bid_empty_side_indistinguishable :
    (OrderBook.new 5).openOrder .Buy ⟨cents 0, 1, 3⟩ = MRes.ok obC5 ∧
    obC5.bidPrice = (OrderBook.new 5).bidPrice ∧
    (OrderBook.new 5).askPrice = (USIZE_MAX : ℚ) / 100 := by
  refine ⟨?_, rfl, rfl⟩
  simp only [OrderBook.new, OrderBook.openOrder, OrderBook.get_idx, quantize_cents,
    obC5, List.replicate, lvl]
  norm_num [show (0 : Nat) < USIZE_MAX from lt_USIZE_MAX (by norm_num)]

/-- Claim C5 as amended: bid() and ask() are total and never mutate,
but on a freshly created (empty) book they return precisely the price
formula applied to the sentinel cursor values — 0/100 for the bid side
and usize::MAX/100 for the ask side — not a distinguished no-liquidity
signal; callers must track liquidity separately. -/
theorem bid_ask_sentinel_values (m : Nat) :
    (OrderBook.new m).bid = 0 ∧ (OrderBook.new m).ask = USIZE_MAX ∧
    (OrderBook.new m).bidPrice = ((0 : Nat) : ℚ) / 100 ∧
    (OrderBook.new m).askPrice = (USIZE_MAX : ℚ) / 100 :=
  ⟨rfl, rfl, rfl, rfl⟩

/-! Claim C7, counterexample part. -/

/-- Counterexample to claim C7.  The claim asserts reload succeeds for
every snapshot whose prices quantize into grid range.  A crossed
snapshot — one bid at 0.05, one ask at 0.03, both in range of a
capacity-10 grid — drives open's assert!(bid < ask) to failure during
the ask replay: reload aborts the process instead of succeeding. -/
theorem reload_crossed_snapshot_aborts :
    (OrderBook.new 10).reload [⟨cents 5, 1, 1⟩] [⟨cents 3, 1, 2⟩] = MRes.panic := by
  simp only [OrderBook.reload, OrderBook.openAll, OrderBook.openOrder, OrderBook.get_idx,
    quantize_cents, lvl, OrderBook.new, List.replicate]
  norm_num [show (5 : Nat) < USIZE_MAX from lt_USIZE_MAX (by norm_num),
    show (3 : Nat) < USIZE_MAX from lt_USIZE_MAX (by norm_num)]

/-! Claim C9, counterexample part. -/

/-- Counterexample to claim C9.  The claim asserts done never fails
when no entry with the id rests at the level.  On a fresh book the bid
cursor sentinel is 0, a valid grid index: done at price 0.00 (index 0,
empty level, id absent) enters the repair scan, which decrements the
cursor below index 0 and aborts the process — the very first call
fails, so "done twice equals done once" fails as well. -/
theorem done_on_fresh_book_aborts :
    (OrderBook.new 5).done (cents 0) 7 = MRes.panic := by
  simp only [OrderBook.new, OrderBook.done, OrderBook.get_idx, quantize_cents, lvl,
    OrderBook.check_ask_bid, scanDown, List.replicate]
  norm_num [show (0 : Nat) ≠ USIZE_MAX from ne_USIZE_MAX (by norm_num)]

/-! Claim C10. -/

/-- Counterexample to claim C10.  The claim says a window extending
past the grid boundary is rejected or clamped.  bids(3) on a fresh
book of capacity 6 (bid cursor 0, window would need indices below 0)
is neither rejected (the query returns a plain vector, there is no
error channel) nor clamped: the wrapped start index fails the slice
bound check and the process aborts (modelled none). -/
theorem bids_overrun_aborts : (OrderBook.new 6).bids 3 = none := by decide

/-- Claim C10 as amended: bids/asks never mutate the book (they are
pure reads of it), and a window that extends past the grid boundary
makes the call abort on the slice bound check — it never silently
reads out of bounds, but it panics rather than rejecting or clamping. -/
theorem bids_asks_overrun_abort (ob : OrderBook) (sz : Nat)
    (hlen : ob.book.length ≤ USIZE_MAX) :
    (ob.bid < ob.book.length → ob.bid + 1 < sz → sz ≤ USIZE_MAX → ob.bids sz = none) ∧
    (1 ≤ sz → ob.book.length ≤ ob.ask + sz - 1 → ob.ask + sz ≤ USIZE_MAX + 1 →
      ob.asks sz = none) := by
  have hlen' : ob.book.length ≤ 2 ^ 64 - 1 := hlen
  constructor
  · intro h1 h2 h3
    have h3' : sz ≤ 2 ^ 64 - 1 := h3
    simp only [OrderBook.bids, OrderBook.side, wadd, wsub, USIZE_MOD]
    rw [if_neg]
    omega
  · intro h1 h2 h3
    have h3' : ob.ask + sz ≤ 2 ^ 64 - 1 + 1 := h3
    simp only [OrderBook.asks, OrderBook.side, wadd, wsub, USIZE_MOD]
    rw [if_neg]
    omega

/-- Witness for the amended claim C10 at a concrete input: on a fresh
book of capacity 5, bids(2) and asks(1) both overrun and abort. -/
theorem bids_asks_overrun_abort_witness :
    (OrderBook.new 5).book.length ≤ USIZE_MAX ∧
    (OrderBook.new 5).bids 2 = none ∧ (OrderBook.new 5).asks 1 = none :=
  ⟨by decide,
   (bids_asks_overrun_abort (OrderBook.new 5) 2 (by decide)).1
     (by decide) (by decide) (by decide),
   (bids_asks_overrun_abort (OrderBook.new 5) 1 (by decide)).2
     (by decide) (by decide) (by decide)⟩

lemma side_window (l : List Level) (a k : Nat) (h : a + k ≤ l.length) :
    ((l.drop a).take k).map levelSize
      = (List.range k).map (fun i => levelSize (lvl l (a + i))) := by
  apply List.ext_getElem
  · simp
    omega
  · intro n h₁ h₂
    have hn : n < k := by simpa using h₂
    have hln : a + n < l.length := by omega
    simp only [List.getElem_map, List.getElem_take, List.getElem_drop,
      List.getElem_range, lvl]
    rw [List.getD_eq_getElem _ _ hln]

/-! Claim C6. -/

/-- Claim C6: for a window that stays inside the grid, bids(n) returns
the per-level aggregate sizes (sum of all resting entry sizes at each
level) for the n levels ending at the bid cursor, in ascending index
order, and asks(n) the n levels starting at the ask cursor; empty
levels contribute levelSize [] = 0. -/
theorem bids_asks_window_aggregates (ob : OrderBook) (n : Nat)
    (hlen : ob.book.length ≤ USIZE_MAX) (hn : 1 ≤ n) :
    (ob.bid < ob.book.length → n ≤ ob.bid + 1 →
      ob.bids n = some ((List.range n).map
        (fun i => levelSize (lvl ob.book (ob.bid + 1 - n + i))))) ∧
    (ob.ask + n ≤ ob.book.length →
      ob.asks n = some ((List.range n).map
        (fun i => levelSize (lvl ob.book (ob.ask + i))))) := by
  have hlen' : ob.book.length ≤ 2 ^ 64 - 1 := hlen
  constructor
  · intro hb hnb
    have ha : wadd (wsub ob.bid n) 1 = ob.bid + 1 - n := by
      simp only [wadd, wsub, USIZE_MOD]
      omega
    simp only [OrderBook.bids, ha, OrderBook.side]
    rw [if_pos ⟨by omega, hb⟩]
    rw [show ob.bid + 1 - (ob.bid + 1 - n) = n from by omega]
    rw [side_window _ _ _ (by omega)]
  · intro hask
    have hb : wsub (wadd ob.ask n) 1 = ob.ask + n - 1 := by
      simp only [wadd, wsub, USIZE_MOD]
      omega
    simp only [OrderBook.asks, hb, OrderBook.side]
    rw [if_pos ⟨by omega, by omega⟩]
    rw [show ob.ask + n - 1 + 1 - ob.ask = n from by omega]
    rw [side_window _ _ _ (by omega)]

/-- Four-level book used by the C6 witness: occupied levels at indices
0, 2 (two entries) and 3, bid cursor 1, ask cursor 2. -/
def obC6 : OrderBook :=
  { book := [[((1 : ℚ), 1)], [], [((2 : ℚ), 2), ((3 : ℚ), 3)], [((4 : ℚ), 4)]]
    bid := 1
    ask := 2
    matchIdx := 0 }

/-- Witness for claim C6 at a concrete input: a two-level window on
each side of the four-level book obC6. -/
theorem bids_asks_window_aggregates_witness :
    obC6.book.length ≤ USIZE_MAX ∧ obC6.bid < obC6.book.length ∧
    2 ≤ obC6.bid + 1 ∧ obC6.ask + 2 ≤ obC6.book.length ∧
    obC6.bids 2 = some ((List.range 2).map
      (fun i => levelSize (lvl obC6.book (obC6.bid + 1 - 2 + i)))) ∧
    obC6.asks 2 = some ((List.range 2).map
      (fun i => levelSize (lvl obC6.book (obC6.ask + i)))) :=
  ⟨by decide, by decide, by decide, by decide,
   (bids_asks_window_aggregates obC6 2 (by decide) (by decide)).1
     (by decide) (by decide),
   (bids_asks_window_aggregates obC6 2 (by decide) (by decide)).2 (by decide)⟩

/-! Claim C7, amended part.  Arithmetic of the incremental cursor
updates performed while a snapshot is replayed. -/

lemma foldl_max_le (l : List Nat) : ∀ (init M : Nat), init ≤ M → (∀ x ∈ l, x ≤ M) →
    l.foldl max init ≤ M := by
  induction l with
  | nil =>
    intro init M h _
    simpa using h
  | cons x l ih =>
    intro init M h hall
    simp only [List.foldl_cons]
    exact ih _ M (max_le h (hall x (by simp))) (fun y hy => hall y (by simp [hy]))

lemma le_foldl_max (l : List Nat) : ∀ (init : Nat), init ≤ l.foldl max init := by
  induction l with
  | nil =>
    intro init
    simp
  | cons x l ih =>
    intro init
    simp only [List.foldl_cons]
    exact le_trans (le_max_left init x) (ih _)

lemma le_foldl_max_of_mem (l : List Nat) : ∀ (init x : Nat), x ∈ l →
    x ≤ l.foldl max init := by
  induction l with
  | nil =>
    intro _ x hx
    simp at hx
  | cons y l ih =>
    intro init x hx
    simp only [List.foldl_cons]
    rcases List.mem_cons.mp hx with rfl | hx'
    · exact le_trans (le_max_right init x) (le_foldl_max l _)
    · exact ih _ x hx'

lemma foldl_max_eq {l : List Nat} {M : Nat} (hM : M ∈ l) (hall : ∀ x ∈ l, x ≤ M) :
    l.foldl max 0 = M :=
  Nat.le_antisymm (foldl_max_le l 0 M (Nat.zero_le M) hall) (le_foldl_max_of_mem l 0 M hM)

lemma le_foldl_min (l : List Nat) : ∀ (init M : Nat), M ≤ init → (∀ x ∈ l, M ≤ x) →
    M ≤ l.foldl min init := by
  induction l with
  | nil =>
    intro init M h _
    simpa using h
  | cons x l ih =>
    intro init M h hall
    simp only [List.foldl_cons]
    exact ih _ M (le_min h (hall x (by simp))) (fun y hy => hall y (by simp [hy]))

lemma foldl_min_le (l : List Nat) : ∀ (init : Nat), l.foldl min init ≤ init := by
  induction l with
  | nil =>
    intro init
    simp
  | cons x l ih =>
    intro init
    simp only [List.foldl_cons]
    exact le_trans (ih _) (min_le_left init x)

lemma foldl_min_le_of_mem (l : List Nat) : ∀ (init x : Nat), x ∈ l →
    l.foldl min init ≤ x := by
  induction l with
  | nil =>
    intro _ x hx
    simp at hx
  | cons y l ih =>
    intro init x hx
    simp only [List.foldl_cons]
    rcases List.mem_cons.mp hx with rfl | hx'
    · exact le_trans (foldl_min_le l _) (min_le_right init x)
    · exact ih _ x hx'

lemma foldl_min_eq {l : List Nat} {M : Nat} (hM : M ∈ l) (hMle : M ≤ USIZE_MAX)
    (hall : ∀ x ∈ l, M ≤ x) : l.foldl min USIZE_MAX = M :=
  Nat.le_antisymm (foldl_min_le_of_mem l USIZE_MAX M hM) (le_foldl_min l USIZE_MAX M hMle hall)

lemma quantize_mono {p q : ℚ} (h : p ≤ q) : quantize p ≤ quantize q := by
  unfold quantize
  exact Int.toNat_le_toNat
    (Int.floor_le_floor (mul_le_mul_of_nonneg_right h (by norm_num)))

lemma exists_price_max : ∀ (l : List BookRecord), l ≠ [] →
    ∃ r ∈ l, ∀ s ∈ l, s.price ≤ r.price := by
  intro l
  induction l with
  | nil =>
    intro h
    exact absurd rfl h
  | cons x l ih =>
    intro _
    rcases eq_or_ne l [] with rfl | hne
    · refine ⟨x, by simp, ?_⟩
      intro s hs
      rcases List.mem_cons.mp hs with rfl | hs'
      · exact le_refl _
      · simp at hs'
    · obtain ⟨r, hr, hmax⟩ := ih hne
      rcases le_total r.price x.price with hc | hc
      · refine ⟨x, by simp, ?_⟩
        intro s hs
        rcases List.mem_cons.mp hs with rfl | hs'
        · exact le_refl _
        · exact le_trans (hmax s hs') hc
      · refine ⟨r, by simp [hr], ?_⟩
        intro s hs
        rcases List.mem_cons.mp hs with rfl | hs'
        · exact hc
        · exact hmax s hs'

lemma exists_price_min : ∀ (l : List BookRecord), l ≠ [] →
    ∃ r ∈ l, ∀ s ∈ l, r.price ≤ s.price := by
  intro l
  induction l with
  | nil =>
    intro h
    exact absurd rfl h
  | cons x l ih =>
    intro _
    rcases eq_or_ne l [] with rfl | hne
    · refine ⟨x, by simp, ?_⟩
      intro s hs
      rcases List.mem_cons.mp hs with rfl | hs'
      · exact le_refl _
      · simp at hs'
    · obtain ⟨r, hr, hmin⟩ := ih hne
      rcases le_total x.price r.price with hc | hc
      · refine ⟨x, by simp, ?_⟩
        intro s hs
        rcases List.mem_cons.mp hs with rfl | hs'
        · exact le_refl _
        · exact le_trans hc (hmin s hs')
      · refine ⟨r, by simp [hr], ?_⟩
        intro s hs
        rcases List.mem_cons.mp hs with rfl | hs'
        · exact hc
        · exact hmin s hs'

/-- One buy insertion while the sell side is still empty: the bid
cursor becomes the running maximum and the assert passes. -/
lemma openOrder_buy_ok (ob : OrderBook) (r : BookRecord)
    (hin : quantize r.price < ob.book.length)
    (hask : ob.ask = USIZE_MAX) (hbid : ob.bid < USIZE_MAX)
    (hlen : ob.book.length ≤ USIZE_MAX) :
    ∃ ob₁, ob.openOrder .Buy r = MRes.ok ob₁ ∧
      ob₁.bid = max ob.bid (quantize r.price) ∧ ob₁.ask = USIZE_MAX ∧
      ob₁.book.length = ob.book.length := by
  simp only [OrderBook.openOrder, get_idx_some hin]
  by_cases hgt : quantize r.price > ob.bid
  · rw [if_pos hgt, if_pos (by simp [hask]; omega)]
    exact ⟨_, rfl, by simp [max_eq_right (le_of_lt hgt)], by simp [hask], by simp⟩
  · rw [if_neg hgt, if_pos (by rw [hask]; omega)]
    exact ⟨_, rfl, by simp [max_eq_left (not_lt.mp hgt)], by simp [hask], by simp⟩

/-- One sell insertion above the resting bid cursor: the ask cursor
becomes the running minimum and the assert passes. -/
lemma openOrder_sell_ok (ob : OrderBook) (r : BookRecord)
    (hin : quantize r.price < ob.book.length)
    (hba : ob.bid < ob.ask) (hcr : ob.bid < quantize r.price) :
    ∃ ob₁, ob.openOrder .Sell r = MRes.ok ob₁ ∧
      ob₁.ask = min ob.ask (quantize r.price) ∧ ob₁.bid = ob.bid ∧
      ob₁.book.length = ob.book.length := by
  simp only [OrderBook.openOrder, get_idx_some hin]
  by_cases hlt : quantize r.price < ob.ask
  · rw [if_pos hlt, if_pos (by simpa using hcr)]
    exact ⟨_, rfl, by simp [min_eq_right (le_of_lt hlt)], by simp, by simp⟩
  · rw [if_neg hlt, if_pos (by simpa using hba)]
    exact ⟨_, rfl, by simp [min_eq_left (not_lt.mp hlt)], by simp, by simp⟩

/-- Replaying a whole buy snapshot onto a book whose sell side is
empty: every open succeeds and the bid cursor folds up the maximum
quantized index. -/
lemma openAll_buy : ∀ (B : List BookRecord) (ob : OrderBook),
    (∀ r ∈ B, quantize r.price < ob.book.length) →
    ob.ask = USIZE_MAX → ob.bid < USIZE_MAX → ob.book.length ≤ USIZE_MAX →
    ∃ ob', ob.openAll .Buy B = MRes.ok ob' ∧
      ob'.bid = (B.map fun r => quantize r.price).foldl max ob.bid ∧
      ob'.ask = USIZE_MAX ∧ ob'.book.length = ob.book.length := by
  intro B
  induction B with
  | nil =>
    intro ob _ hask _ _
    exact ⟨ob, rfl, by simp, hask, rfl⟩
  | cons r rs ih =>
    intro ob hin hask hbid hlen
    obtain ⟨ob₁, hstep, hbid₁, hask₁, hlen₁⟩ :=
      openOrder_buy_ok ob r (hin r (by simp)) hask hbid hlen
    obtain ⟨ob', hrest, hbid', hask', hlen'⟩ := ih ob₁
      (fun s hs => by rw [hlen₁]; exact hin s (by simp [hs]))
      hask₁
      (by rw [hbid₁]; exact max_lt hbid (lt_of_lt_of_le (hin r (by simp)) hlen))
      (by rw [hlen₁]; exact hlen)
    refine ⟨ob', ?_, ?_, hask', by rw [hlen', hlen₁]⟩
    · simp only [OrderBook.openAll, hstep]
      exact hrest
    · rw [hbid', hbid₁]
      simp [List.foldl_cons]

/-- Replaying a whole ask snapshot whose quantized prices all sit
above the resting bid cursor: every open succeeds and the ask cursor
folds down the minimum quantized index. -/
lemma openAll_sell : ∀ (A : List BookRecord) (ob : OrderBook),
    (∀ r ∈ A, quantize r.price < ob.book.length) →
    (∀ r ∈ A, ob.bid < quantize r.price) → ob.bid < ob.ask →
    ∃ ob', ob.openAll .Sell A = MRes.ok ob' ∧
      ob'.ask = (A.map fun r => quantize r.price).foldl min ob.ask ∧
      ob'.bid = ob.bid ∧ ob'.book.length = ob.book.length := by
  intro A
  induction A with
  | nil =>
    intro ob _ _ _
    exact ⟨ob, rfl, by simp, rfl, rfl⟩
  | cons r rs ih =>
    intro ob hin hcr hba
    obtain ⟨ob₁, hstep, hask₁, hbid₁, hlen₁⟩ :=
      openOrder_sell_ok ob r (hin r (by simp)) hba (hcr r (by simp))
    obtain ⟨ob', hrest, hask', hbid', hlen'⟩ := ih ob₁
      (fun s hs => by rw [hlen₁]; exact hin s (by simp [hs]))
      (fun s hs => by rw [hbid₁]; exact hcr s (by simp [hs]))
      (by rw [hbid₁, hask₁]; exact lt_min hba (hcr r (by simp)))
    refine ⟨ob', ?_, ?_, by rw [hbid', hbid₁], by rw [hlen', hlen₁]⟩
    · simp only [OrderBook.openAll, hstep]
      exact hrest
    · rw [hask', hask₁]
      simp [List.foldl_cons]

/-- Claim C7 as amended: reload of a snapshot whose prices all
quantize into grid range succeeds — provided the snapshot itself is
not crossed (maximum quantized bid index strictly below minimum
quantized ask index; a crossed snapshot trips open's assert, see the
counterexample) and both sides are non-empty — and afterwards bid()
is the quantized maximum bid price over 100 and ask() the quantized
minimum ask price over 100, independent of the prior book state. -/
theorem reload_touch_prices (ob : OrderBook) (B A : List BookRecord)
    (hB : B ≠ []) (hA : A ≠ [])
    (hinB : ∀ r ∈ B, quantize r.price < ob.book.length)
    (hinA : ∀ r ∈ A, quantize r.price < ob.book.length)
    (hlen : ob.book.length ≤ USIZE_MAX)
    (hcross : (B.map fun r => quantize r.price).foldl max 0 <
      (A.map fun r => quantize r.price).foldl min USIZE_MAX) :
    ∃ ob', ob.reload B A = MRes.ok ob' ∧
      (∃ r ∈ B, (∀ s ∈ B, s.price ≤ r.price) ∧
        ob'.bidPrice = (quantize r.price : ℚ) / 100) ∧
      (∃ r ∈ A, (∀ s ∈ A, r.price ≤ s.price) ∧
        ob'.askPrice = (quantize r.price : ℚ) / 100) := by
  have hlen₀ : (ob.book.map fun _ => ([] : Level)).length = ob.book.length :=
    List.length_map _ _
  obtain ⟨ob₁, hBrun, hbid₁, hask₁, hlen₁⟩ := openAll_buy B
    { book := ob.book.map fun _ => ([] : Level)
      bid := 0
      ask := USIZE_MAX
      matchIdx := ob.matchIdx }
    (fun r hr => by rw [hlen₀]; exact hinB r hr)
    rfl
    (by norm_num [USIZE_MAX])
    (by rw [hlen₀]; exact hlen)
  obtain ⟨ob₂, hArun, hask₂, hbid₂, hlen₂⟩ := openAll_sell A ob₁
    (fun r hr => by rw [hlen₁, hlen₀]; exact hinA r hr)
    (fun r hr => by
      rw [hbid₁]
      exact lt_of_lt_of_le hcross
        (foldl_min_le_of_mem _ _ _ (List.mem_map_of_mem _ hr)))
    (by
      rw [hbid₁, hask₁]
      exact lt_of_lt_of_le hcross (foldl_min_le _ _))
  refine ⟨ob₂, ?_, ?_, ?_⟩
  · simp only [OrderBook.reload, hBrun]
    exact hArun
  · obtain ⟨rmax, hrmem, hrmax⟩ := exists_price_max B hB
    refine ⟨rmax, hrmem, hrmax, ?_⟩
    have hfold : (B.map fun r => quantize r.price).foldl max 0 = quantize rmax.price :=
      foldl_max_eq (List.mem_map_of_mem _ hrmem)
        (fun x hx => by
          obtain ⟨s, hs, rfl⟩ := List.mem_map.mp hx
          exact quantize_mono (hrmax s hs))
    rw [OrderBook.bidPrice, hbid₂, hbid₁, hfold]
  · obtain ⟨rmin, hrmem, hrmin⟩ := exists_price_min A hA
    refine ⟨rmin, hrmem, hrmin, ?_⟩
    have hfold : (A.map fun r => quantize r.price).foldl min USIZE_MAX
        = quantize rmin.price :=
      foldl_min_eq (List.mem_map_of_mem _ hrmem)
        (le_of_lt (lt_of_lt_of_le (hinA rmin hrmem) hlen))
        (fun x hx => by
          obtain ⟨s, hs, rfl⟩ := List.mem_map.mp hx
          exact quantize_mono (hrmin s hs))
    rw [OrderBook.askPrice, hask₂, hask₁, hfold]

/-- Witness for the amended claim C7 at a concrete input: reloading a
fresh capacity-10 book with bids at 0.05 and 0.03 and one ask at 0.08
succeeds, and the touch prices are the quantized extrema 5/100 and
8/100. -/
theorem reload_touch_prices_witness :
    ([⟨cents 5, 1, 1⟩, ⟨cents 3, 2, 2⟩] : List BookRecord) ≠ [] ∧
    ([⟨cents 8, 1, 3⟩] : List BookRecord) ≠ [] ∧
    (∀ r ∈ ([⟨cents 5, 1, 1⟩, ⟨cents 3, 2, 2⟩] : List BookRecord),
      quantize r.price < (OrderBook.new 10).book.length) ∧
    (∀ r ∈ ([⟨cents 8, 1, 3⟩] : List BookRecord),
      quantize r.price < (OrderBook.new 10).book.length) ∧
    (OrderBook.new 10).book.length ≤ USIZE_MAX ∧
    (([⟨cents 5, 1, 1⟩, ⟨cents 3, 2, 2⟩] : List BookRecord).map
        fun r => quantize r.price).foldl max 0 <
      (([⟨cents 8, 1, 3⟩] : List BookRecord).map
        fun r => quantize r.price).foldl min USIZE_MAX ∧
    (∃ ob', (OrderBook.new 10).reload
        [⟨cents 5, 1, 1⟩, ⟨cents 3, 2, 2⟩] [⟨cents 8, 1, 3⟩] = MRes.ok ob' ∧
      (∃ r ∈ ([⟨cents 5, 1, 1⟩, ⟨cents 3, 2, 2⟩] : List BookRecord),
        (∀ s ∈ ([⟨cents 5, 1, 1⟩, ⟨cents 3, 2, 2⟩] : List BookRecord),
          s.price ≤ r.price) ∧
        ob'.bidPrice = (quantize r.price : ℚ) / 100) ∧
      (∃ r ∈ ([⟨cents 8, 1, 3⟩] : List BookRecord),
        (∀ s ∈ ([⟨cents 8, 1, 3⟩] : List BookRecord), r.price ≤ s.price) ∧
        ob'.askPrice = (quantize r.price : ℚ) / 100)) :=
  ⟨by simp, by simp,
   by simp [OrderBook.new, quantize_cents],
   by simp [OrderBook.new, quantize_cents],
   by norm_num [OrderBook.new, USIZE_MAX],
   by norm_num [quantize_cents, USIZE_MAX],
   reload_touch_prices (OrderBook.new 10) _ _ (by simp) (by simp)
     (by simp [OrderBook.new, quantize_cents])
     (by simp [OrderBook.new, quantize_cents])
     (by norm_num [OrderBook.new, USIZE_MAX])
     (by norm_num [quantize_cents, USIZE_MAX])⟩

/-! Claim C4. -/

/-- Claim C4: with an in-range price, _match returns
Err(MatchMismatchError) — leaving the whole book state untouched, as
the err outcome carries the unchanged state ob — exactly when the
queue at the quantized price is empty or its head entry's id differs
from the requested id. -/
theorem matchOrder_mismatch_iff (ob : OrderBook) (price size : ℚ) (id : Uuid)
    (hin : quantize price < ob.book.length) :
    ob.matchOrder price size id = MRes.err Error.MatchUuid ob ↔
      lvl ob.book (quantize price) = [] ∨
      ∃ e l, lvl ob.book (quantize price) = e :: l ∧ e.2 ≠ id := by
  simp only [OrderBook.matchOrder, get_idx_some hin]
  split
  next hq =>
    rw [hq]
    simp
  next hsz hid rest hq =>
    rw [hq]
    split
    next hid' =>
      exact iff_of_true rfl (Or.inr ⟨(hsz, hid), rest, rfl, Ne.symm hid'⟩)
    next hid' =>
      have hEq : id = hid := not_not.mp hid'
      subst hEq
      constructor
      · intro hcontra
        exfalso
        revert hcontra
        split
        · split <;> simp
        · simp
      · rintro (h | ⟨e, l, he, hne⟩)
        · simp at h
        · rw [List.cons.injEq] at he
          exact (hne (congrArg Prod.snd he.1.symm)).elim

/-- Witness for claim C4 at a concrete input: on a fresh book of
capacity 3 the level at price 0.01 is empty, so _match fails with the
mismatch error and the state is unchanged. -/
theorem matchOrder_mismatch_iff_witness :
    quantize (cents 1) < (OrderBook.new 3).book.length ∧
    (OrderBook.new 3).matchOrder (cents 1) 1 5 =
      MRes.err Error.MatchUuid (OrderBook.new 3) :=
  ⟨by simp [quantize_cents, OrderBook.new],
   (matchOrder_mismatch_iff (OrderBook.new 3) (cents 1) 1 5
      (by simp [quantize_cents, OrderBook.new])).mpr
     (Or.inl (by rw [quantize_cents]; rfl))⟩

/-! Claim C8. -/

/-- The nonzero branch of change evaluated: an in-place map over the
level that overwrites the size of matching entries. -/
lemma change_nonzero (ob : OrderBook) (price new_size : ℚ) (id : Uuid)
    (hin : quantize price < ob.book.length) (hns : new_size ≠ 0) :
    ob.change price new_size id = MRes.ok { ob with
      book := ob.book.set (quantize price)
        ((lvl ob.book (quantize price)).map
          (fun e => if e.2 = id then (new_size, e.2) else e)) } := by
  simp only [OrderBook.change, get_idx_some hin, if_neg hns]

/-- With an in-range price, done can only return Ok or abort — never a
returned error. -/
lemma done_ne_err (ob : OrderBook) (price : ℚ) (id : Uuid)
    (hin : quantize price < ob.book.length) :
    ∀ e s, ob.done price id ≠ MRes.err e s := by
  intro e s
  simp only [OrderBook.done, get_idx_some hin]
  split <;> simp

/-- Claim C8: with an in-range price, change with new_size = 0 has
exactly the effect (state and outcome) of done; with a nonzero
new_size it returns Ok and overwrites in place the size of the
matching entries at that level, preserving every entry's queue
position and leaving all other entries unchanged (the map
formulation); and it is a no-op when no entry at the level carries the
id. -/
theorem change_semantics (ob : OrderBook) (price new_size : ℚ) (id : Uuid)
    (hin : quantize price < ob.book.length) :
    (new_size = 0 → ob.change price new_size id = ob.done price id) ∧
    (new_size ≠ 0 → ob.change price new_size id = MRes.ok { ob with
      book := ob.book.set (quantize price)
        ((lvl ob.book (quantize price)).map
          (fun e => if e.2 = id then (new_size, e.2) else e)) }) ∧
    (new_size ≠ 0 → (∀ e ∈ lvl ob.book (quantize price), e.2 ≠ id) →
      ob.change price new_size id = MRes.ok ob) := by
  refine ⟨?_, change_nonzero ob price new_size id hin, ?_⟩
  · intro h0
    subst h0
    simp only [OrderBook.change, get_idx_some hin, reduceIte]
    cases hd : ob.done price id with
    | ok ob' => rfl
    | err e s => exact absurd hd (done_ne_err ob price id hin e s)
    | panic => rfl
  · intro hns habs
    rw [change_nonzero ob price new_size id hin hns]
    rw [map_eq_self_of _ _ fun e he => if_neg (habs e he)]
    rw [set_lvl_self _ _ hin]

/-! Claim C9, amended part.  Facts about the repair scans needed to
show the second cancel finds the cursors already parked on occupied
levels. -/

lemma scanDown_some {book : List Level} :
    ∀ {s b : Nat}, scanDown book s = some b → b < book.length ∧ lvl book b ≠ [] := by
  intro s
  induction s with
  | zero =>
    intro b h
    simp only [scanDown] at h
    split_ifs at h with h1 h2
    · cases h
      exact ⟨by omega, h2⟩
  | succ m ih =>
    intro b h
    simp only [scanDown] at h
    split_ifs at h with h1 h2
    · cases h
      exact ⟨by omega, h2⟩
    · exact ih h

lemma scanDown_self {book : List Level} {s : Nat}
    (h1 : s < book.length) (h2 : lvl book s ≠ []) : scanDown book s = some s := by
  cases s with
  | zero =>
    simp only [scanDown]
    rw [if_neg (by omega), if_pos h2]
  | succ m =>
    simp only [scanDown]
    rw [if_neg (by omega), if_pos h2]

lemma scanUp_some {book : List Level} :
    ∀ (m : Nat) {a b : Nat}, book.length - a ≤ m → scanUp book a = some b →
      b < book.length ∧ lvl book b ≠ [] := by
  intro m
  induction m with
  | zero =>
    intro a b hm h
    unfold scanUp at h
    rw [dif_pos (by omega)] at h
    cases h
  | succ m ih =>
    intro a b hm h
    unfold scanUp at h
    by_cases hl : book.length ≤ a
    · rw [dif_pos hl] at h
      cases h
    · rw [dif_neg hl] at h
      by_cases he : lvl book a ≠ []
      · rw [if_pos he] at h
        cases h
        exact ⟨by omega, he⟩
      · rw [if_neg he] at h
        exact ih (by omega) h

lemma scanUp_self {book : List Level} {a : Nat}
    (h1 : a < book.length) (h2 : lvl book a ≠ []) : scanUp book a = some a := by
  unfold scanUp
  rw [dif_neg (by omega), if_pos h2]

/-- Dissection of a successful done call: the index resolved and the
cursor repair succeeded on the filtered book. -/
lemma done_eq_ok {ob ob₁ : OrderBook} {price : ℚ} {id : Uuid}
    (h : ob.done price id = MRes.ok ob₁) :
    ∃ p, ob.get_idx price = some p ∧
      OrderBook.check_ask_bid
        { ob with
          book := (ob.book.set p ((lvl ob.book p).filter (fun e => decide (e.2 ≠ id)))) }
        p = some ob₁ := by
  rcases hgi : ob.get_idx price with _ | p
  · simp only [OrderBook.done, hgi] at h
    exact MRes.noConfusion h
  · refine ⟨p, rfl, ?_⟩
    simp only [OrderBook.done, hgi] at h
    split at h
    next ob₂ heq =>
      injection h with h₂
      rwa [h₂] at heq
    next heq => exact MRes.noConfusion h

/-- Claim C9 as amended: with an in-range price, done never returns an
error (cancel of an absent id is not an error), and whenever a done
call returns at all (rather than aborting inside the unguarded repair
scan, see the counterexample), running the same done again returns
success and leaves the book exactly as it was after the first call. -/
theorem done_idempotent (ob : OrderBook) (price : ℚ) (id : Uuid)
    (hin : quantize price < ob.book.length) :
    (∀ e s, ob.done price id ≠ MRes.err e s) ∧
    (∀ ob₁, ob.done price id = MRes.ok ob₁ → ob₁.done price id = MRes.ok ob₁) := by
  refine ⟨done_ne_err ob price id hin, ?_⟩
  intro ob₁ h
  obtain ⟨p, hgi, hc⟩ := done_eq_ok h
  rw [get_idx_some hin] at hgi
  injection hgi with hp
  subst hp
  simp only [OrderBook.check_ask_bid] at hc
  split at hc
  next heqb => exact Option.noConfusion hc
  next b heqb =>
    split at hc
    next heqa => exact Option.noConfusion hc
    next a heqa =>
      injection hc with hc₁
      subst hc₁
      have hplt : quantize price <
          (ob.book.set (quantize price)
            ((lvl ob.book (quantize price)).filter (fun e => decide (e.2 ≠ id)))).length := by
        simpa using hin
      have hlvl : lvl (ob.book.set (quantize price)
          ((lvl ob.book (quantize price)).filter (fun e => decide (e.2 ≠ id))))
          (quantize price)
          = (lvl ob.book (quantize price)).filter (fun e => decide (e.2 ≠ id)) :=
        lvl_set _ _ _ hin
      have hbb : ((ob.book.set (quantize price)
            ((lvl ob.book (quantize price)).filter (fun e => decide (e.2 ≠ id)))).set
          (quantize price)
          ((lvl (ob.book.set (quantize price)
              ((lvl ob.book (quantize price)).filter (fun e => decide (e.2 ≠ id))))
            (quantize price)).filter (fun e => decide (e.2 ≠ id))))
          = ob.book.set (quantize price)
            ((lvl ob.book (quantize price)).filter (fun e => decide (e.2 ≠ id))) := by
        rw [hlvl, filter_idem, List.set_set]
      have hgi₂ : OrderBook.get_idx
          { book := ob.book.set (quantize price)
              ((lvl ob.book (quantize price)).filter (fun e => decide (e.2 ≠ id)))
            bid := b
            ask := a
            matchIdx := ob.matchIdx } price = some (quantize price) :=
        get_idx_some (by simpa using hin)
      have hbid : (if quantize price = b then
          scanDown (ob.book.set (quantize price)
            ((lvl ob.book (quantize price)).filter (fun e => decide (e.2 ≠ id)))) b
          else some b) = some b := by
        by_cases hpb : quantize price = b
        · rw [if_pos hpb]
          by_cases hpbid : quantize price = ob.bid
          · rw [if_pos hpbid] at heqb
            obtain ⟨hb1, hb2⟩ := scanDown_some heqb
            exact scanDown_self hb1 hb2
          · rw [if_neg hpbid] at heqb
            injection heqb with hbb'
            exact absurd (hpb.trans hbb'.symm) hpbid
        · rw [if_neg hpb]
      have hask : (if quantize price = a then
          scanUp (ob.book.set (quantize price)
            ((lvl ob.book (quantize price)).filter (fun e => decide (e.2 ≠ id)))) a
          else some a) = some a := by
        by_cases hpa : quantize price = a
        · rw [if_pos hpa]
          by_cases hpask : quantize price = ob.ask
          · rw [if_pos hpask] at heqa
            obtain ⟨ha1, ha2⟩ := scanUp_some _ (Nat.le_refl _) heqa
            exact scanUp_self ha1 ha2
          · rw [if_neg hpask] at heqa
            injection heqa with haa
            exact absurd (hpa.trans haa.symm) hpask
        · rw [if_neg hpa]
      simp only [OrderBook.done, hgi₂, hbb, OrderBook.check_ask_bid, hbid, hask]

/-- Three-level book before the cancel used by the C9 witness. -/
def obC9a : OrderBook :=
  { book := [[((1 : ℚ), 1)], [((2 : ℚ), 2)], [((3 : ℚ), 3)]]
    bid := 1
    ask := 2
    matchIdx := 0 }

/-- The same book after done(0.01, 2): level 1 emptied and the bid
cursor repaired down to index 0. -/
def obC9b : OrderBook :=
  { book := [[((1 : ℚ), 1)], [], [((3 : ℚ), 3)]]
    bid := 0
    ask := 2
    matchIdx := 0 }

/-- Witness for the amended claim C9 at a concrete input: cancelling
id 2 at price 0.01 empties the touch level and repairs the cursor;
repeating the same cancel succeeds and changes nothing. -/
theorem done_idempotent_witness :
    quantize (cents 1) < obC9a.book.length ∧
    obC9a.done (cents 1) 2 = MRes.ok obC9b ∧
    obC9b.done (cents 1) 2 = MRes.ok obC9b := by
  have hin : quantize (cents 1) < obC9a.book.length := by
    simp [quantize_cents, obC9a]
  have h1 : obC9a.done (cents 1) 2 = MRes.ok obC9b := by
    simp only [obC9a, obC9b, OrderBook.done, OrderBook.get_idx, quantize_cents, lvl,
      OrderBook.check_ask_bid, scanDown]
    norm_num [show (1 : Nat) ≠ 2 from by omega]
  exact ⟨hin, h1, (done_idempotent obC9a (cents 1) 2 hin).2 obC9b h1⟩

/-- Book with one level holding two resting entries, used by the C8
witness. -/
def obC8 : OrderBook :=
  { book := [[((2 : ℚ), 5), ((3 : ℚ), 9)]], bid := 0, ask := USIZE_MAX, matchIdx := 0 }

/-- Witness for claim C8 at a concrete input: a level with two resting
entries; change with a nonzero size overwrites the matching entry in
place. -/
theorem change_semantics_witness :
    quantize (cents 0) < obC8.book.length ∧
    obC8.change (cents 0) 4 9 = MRes.ok { obC8 with
      book := obC8.book.set (quantize (cents 0))
        ((lvl obC8.book (quantize (cents 0))).map
          (fun e => if e.2 = 9 then ((4 : ℚ), e.2) else e)) } :=
  ⟨by simp [quantize_cents, obC8],
   (change_semantics obC8 (cents 0) 4 9 (by simp [quantize_cents, obC8])).2.1
     (by norm_num)⟩

end OB
